import Mathlib

/-!
# errs: call-site annotated error traces

A shallow embedding of `errors.go` and `consterrs.go`.

Modelling conventions.

* A Go `error` interface value is a value of the inductive type `error`: the nil
  interface, a (non-nil) `*ErrsErr` pointing to a struct with fields `Msg`, `Loc`,
  `Parent`, or a foreign error, represented by the text its own `Error()` method
  returns. Pointer identity is not modelled: two nodes are equal when their fields
  are equal. An interface holding a nil `*ErrsErr` is not represented.
* A call that ends in a Go run-time panic returns `none`; a call that returns the
  string `s` returns `some s`.
* The package variables `MultiLineErrorJoin` and `ErrorFormatter` are the fields of
  `Globals`; every function that reads one of them takes the `Globals` current at
  the time of the call.
* What the Go runtime and standard library supply (`runtime.Caller`,
  `runtime.FuncForPC(pc).Name()`, `path.Base`, `fmt.Sprintf` on a caller supplied
  format) is taken as the fields of `Runtime`: the view the runtime offers to the
  call being modelled. `PanicRuntime` adds what `PanicToErr` reads: `debug.Stack()`
  and the text `fmt` writes for the recovered value under `%+v`.
* A Go string or byte slice is a Lean `String` or its list of characters. The byte of
  a newline is never part of the encoding of another character, so splitting at
  newlines gives the same pieces on characters as on bytes.
-/

namespace Errs

/-- ErrorLocation describes where an error occured (`errors.go`, lines 53-57). -/
structure ErrorLocation where
  funcName : String
  filename : String
  lineNum : Int
  deriving DecidableEq, Repr

/-- The Go interface type `error`, as far as this package can observe it. -/
inductive error where
  /-- The nil interface value. -/
  | nil : error
  /-- A `*ErrsErr`: the struct of `errors.go`, lines 16-20. -/
  | errsErr (Msg : String) (Loc : ErrorLocation) (Parent : error) : error
  /-- Any other implementation of `error`, given by the text of its `Error()`. -/
  | foreign (text : String) : error
  deriving DecidableEq, Repr

/-- An operand of a variadic `...interface{}` parameter. -/
inductive Value where
  | int (i : Int) : Value
  | str (s : String) : Value
  deriving DecidableEq, Repr

/-- The package variables of `errors.go` (lines 26 and 63). -/
structure Globals where
  MultiLineErrorJoin : String
  ErrorFormatter : String → ErrorLocation → String

/-- The Go runtime and standard library, as seen by one call into the package. -/
structure Runtime where
  /-- Models `runtime.Caller(skip)`: program counter, file, line, ok. -/
  Caller : Int → Nat × String × Int × Bool
  /-- Models `runtime.FuncForPC(pc).Name()`. -/
  FuncForPCName : Nat → String
  /-- Models `path.Base`. -/
  pathBase : String → String
  /-- Models `fmt.Sprintf(format, args...)` for a format chosen by the caller. -/
  Sprintf : String → List Value → String

/-- The `for` loop of `(*ErrsErr).Error` (`errors.go`, lines 36-49). At the top of
an iteration `err` points to a node with fields `Msg` and `Parent`, and `msgBuf` is
what has been written so far. The two writes come first; then
`err, ok = err.Parent.(*ErrsErr)`. When the assertion succeeds the switch either
writes the new node's `Msg` and leaves the loop (its `Parent` is nil) or continues.
When it fails `err` is the nil pointer, and the first case evaluates `err.Parent`,
which is a nil pointer dereference. -/
def ErrsErr.Error.loop (sep : String) : error → String → String → Option String
  | .errsErr pMsg _ pParent, Msg, msgBuf =>
      let msgBuf := msgBuf ++ Msg ++ sep
      match pParent with
      | .nil => some (msgBuf ++ pMsg)
      | _ => ErrsErr.Error.loop sep pParent pMsg msgBuf
  | _, _, _ => none

/-- The method `(*ErrsErr).Error` (`errors.go`, lines 29-51) on a node with the
fields `Msg` and `Parent`. -/
def ErrsErr.Error (g : Globals) (Msg : String) (Parent : error) : Option String :=
  match Parent with
  | .nil => some Msg
  | _ => ErrsErr.Error.loop g.MultiLineErrorJoin Parent Msg ""

/-- The call `err.Error()` on an interface value: dispatch on the dynamic type. A
call on the nil interface panics. -/
def error.Error (g : Globals) : error → Option String
  | .nil => none
  | .errsErr Msg _ Parent => ErrsErr.Error g Msg Parent
  | .foreign text => some text

/-- The default ErrorFormatter (`errors.go`, lines 66-68):
`fmt.Sprintf("%s:%d %s(): %s", loc.filename, loc.lineNum, loc.funcName, errMsg)`,
where `%s` writes a string operand as it is and `%d` writes an `int` in base 10. -/
def defFmtErrMsg (errMsg : String) (loc : ErrorLocation) : String :=
  loc.filename ++ ":" ++ toString loc.lineNum ++ " " ++ loc.funcName ++ "(): " ++ errMsg

/-- The initial values of the package variables. -/
def initGlobals : Globals :=
  { MultiLineErrorJoin := "; Details:\n\t", ErrorFormatter := defFmtErrMsg }

/-- The function `fmtErrMsg` (`errors.go`, lines 136-143). -/
def fmtErrMsg (rt : Runtime) (msg : String) (args : List Value) : String :=
  if msg.utf8ByteSize = 0 then
    "An unknown error occured"
  else if args.length > 0 then
    rt.Sprintf msg args
  else
    msg

/-- The function `getCallersInfo` (`errors.go`, lines 145-158). The three results
start as the unknown values; the assignment in the `if` header then stores what
`runtime.Caller` returned into `filename` and `lineNum`, whatever `isKnownFunc` is,
and the body runs only when `isKnownFunc` holds. -/
def getCallersInfo (rt : Runtime) (depth : Int) : ErrorLocation :=
  let (funcName, _filename, _lineNum) := ("Unknown Function", "Unknown File", (-1 : Int))
  let (programCounter, filename, lineNum, isKnownFunc) := rt.Caller depth
  if isKnownFunc then
    { funcName := rt.pathBase (rt.FuncForPCName programCounter)
      filename := rt.pathBase filename
      lineNum := lineNum }
  else
    { funcName := funcName, filename := filename, lineNum := lineNum }

/-- The function `New` (`errors.go`, lines 71-77). -/
def New (g : Globals) (rt : Runtime) (errMsg : String) (args : List Value) : error :=
  let loc := getCallersInfo rt 2
  .errsErr (g.ErrorFormatter (fmtErrMsg rt errMsg args) loc) loc .nil

/-- The function `Append` (`errors.go`, lines 81-88). -/
def Append (g : Globals) (rt : Runtime) (suppliedErr : error) (errMsg : String)
    (args : List Value) : error :=
  let loc := getCallersInfo rt 2
  .errsErr (g.ErrorFormatter (fmtErrMsg rt errMsg args) loc) loc suppliedErr

/-- The `for` loop of `GetRootErr` (`errors.go`, lines 99-104): leave the loop when
`err` is not a `*ErrsErr` or its `Parent` is nil, else move to the `Parent`. -/
def GetRootErr.loop : error → error
  | .errsErr Msg Loc Parent =>
      match Parent with
      | .nil => .errsErr Msg Loc .nil
      | _ => GetRootErr.loop Parent
  | err => err

/-- The function `GetRootErr` (`errors.go`, lines 93-106). -/
def GetRootErr (err : error) : error :=
  match err with
  | .nil => .nil
  | _ => GetRootErr.loop err

/-- The function `GetErrLoc` (`errors.go`, lines 111-122). -/
def GetErrLoc (err : error) : ErrorLocation :=
  match err with
  | .errsErr _ Loc _ => Loc
  | _ => { funcName := "Unknown Function", filename := "Unknown File", lineNum := -1 }

/-- The unknown location returned for errors that carry none. -/
def unknownLoc : ErrorLocation :=
  { funcName := "Unknown Function", filename := "Unknown File", lineNum := -1 }

/-- The chain `n_1 -> n_2 -> ... -> n_k -> last`: node `n_i` is given by its `Msg` and
`Loc`, its `Parent` is `n_(i+1)`, and the `Parent` of `n_k` is `last`. -/
def chain (nodes : List (String × ErrorLocation)) (last : error) : error :=
  nodes.foldr (fun n parent => .errsErr n.1 n.2 parent) last

/-- The messages of a list of nodes, outermost first. -/
def msgs (nodes : List (String × ErrorLocation)) : List String :=
  nodes.map Prod.fst

/-- One step along the `Parent` link: the stored `Parent` of a node; an error that is
not a node has no link and stays where it is. -/
def error.step : error → error
  | .errsErr _ _ Parent => Parent
  | err => err

/-- The error reached from `err` after following `n` `Parent` links. -/
def error.follow : Nat → error → error
  | 0, err => err
  | n + 1, err => error.follow n err.step

/-- An error at which a chain ends: a node with no parent, or not a node at all. -/
def error.isLast : error → Bool
  | .errsErr _ _ .nil => true
  | .errsErr _ _ _ => false
  | _ => true

/-- A runtime that resolves the frame at depth 2 to line 69 of `errors_test.go`, in
`errs.subB`, and no other frame. -/
def rtSubB : Runtime :=
  { Caller := fun depth =>
      if depth = 2 then (7, "/go/src/errs/errors_test.go", 69, true) else (0, "", 0, false)
    FuncForPCName := fun pc => if pc = 7 then "github.com/tarndt/errs.subB" else ""
    pathBase := fun s =>
      if s = "/go/src/errs/errors_test.go" then "errors_test.go"
      else if s = "github.com/tarndt/errs.subB" then "errs.subB"
      else s
    Sprintf := fun format args =>
      if format = "sub%s" ∧ args = [.str "A"] then "subA"
      else if format = "Testing %d,2,%d..." ∧ args = [.int 1, .int 3] then "Testing 1,2,3..."
      else format }

/-- Package variables with the initial separator and a formatter that returns the
message text as it is, without the location. -/
def plainGlobals : Globals :=
  { MultiLineErrorJoin := "; Details:\n\t", ErrorFormatter := fun errMsg _ => errMsg }

/-- A runtime that resolves no frame at all. -/
def rtNoFrame : Runtime :=
  { Caller := fun _ => (0, "", 0, false)
    FuncForPCName := fun _ => ""
    pathBase := fun s => s
    Sprintf := fun format _ => format }

/-- The type `ConstErr` (`consterrs.go`, line 7): a named string type. -/
structure ConstErr where
  s : String
  deriving DecidableEq, Repr

/-- The method `ConstErr.Error` (`consterrs.go`, line 9): `string(this)`. -/
def ConstErr.Error (this : ConstErr) : String := this.s

/-- The constant `ErrNotImplemented` (`consterrs.go`, line 11). -/
def ErrNotImplemented : ConstErr := ⟨"This feature is not implemented"⟩

/-- A `ConstErr` stored in a variable of type `error`: its dynamic type is not
`*ErrsErr`, and the text of its `Error()` is that of `ConstErr.Error`. -/
def ConstErr.toError (this : ConstErr) : error := .foreign this.Error

/-- One call of `New` or `Append`: the runtime as seen by that call, the message and
the arguments. -/
structure Call where
  rt : Runtime
  errMsg : String
  args : List Value

/-- The `Msg` stored by the call `c` of `New` or `Append` under the package variables
`g` (`errors.go`, lines 74 and 84). -/
def Call.Msg (g : Globals) (c : Call) : String :=
  g.ErrorFormatter (fmtErrMsg c.rt c.errMsg c.args) (getCallersInfo c.rt 2)

/-- The calls `Append(e, ...)`, `Append(Append(e, ...), ...)`, and so on: every call of
`calls`, first to last, is applied to the error built so far. -/
def appendAll (g : Globals) (e : error) (calls : List Call) : error :=
  calls.foldl (fun built c => Append g c.rt built c.errMsg c.args) e

/-- The number of errors on the chain that starts at an error: its nodes, and the
foreign error at its end if there is one. -/
def error.length : error → Nat
  | .nil => 0
  | .errsErr _ _ Parent => Parent.length + 1
  | .foreign _ => 1

/-- The `for` loop of `GetRootErr` (`errors.go`, lines 99-104), run for at most `fuel`
iterations: `none` when the fuel is used up before the loop is left. -/
def GetRootErr.loopFuel : Nat → error → Option error
  | 0, _ => none
  | fuel + 1, .errsErr Msg Loc Parent =>
      match Parent with
      | .nil => some (.errsErr Msg Loc .nil)
      | _ => GetRootErr.loopFuel fuel Parent
  | _ + 1, err => some err

/-- The `for` loop of `(*ErrsErr).Error` (`errors.go`, lines 36-49), run for at most
`fuel` iterations: `none` when the fuel is used up before the loop is left,
`some none` when the loop ends in a panic, `some (some s)` when it ends with the
buffer `s`. -/
def ErrsErr.Error.loopFuel (sep : String) :
    Nat → error → String → String → Option (Option String)
  | 0, _, _, _ => none
  | fuel + 1, .errsErr pMsg _ pParent, Msg, msgBuf =>
      let msgBuf := msgBuf ++ Msg ++ sep
      match pParent with
      | .nil => some (some (msgBuf ++ pMsg))
      | _ => ErrsErr.Error.loopFuel sep fuel pParent pMsg msgBuf
  | _ + 1, _, _, _ => some none

/-- The method `(*ErrsErr).Error` (`errors.go`, lines 29-51) with its loop run for at
most `fuel` iterations. -/
def ErrsErr.ErrorFuel (g : Globals) (fuel : Nat) (Msg : String) (Parent : error) :
    Option (Option String) :=
  match Parent with
  | .nil => some (some Msg)
  | _ => ErrsErr.Error.loopFuel g.MultiLineErrorJoin fuel Parent Msg ""

/-- What `PanicToErr` reads from the runtime and the standard library besides the
fields of `Runtime`. -/
structure PanicRuntime extends Runtime where
  /-- Models `debug.Stack()`: the formatted stack of the calling goroutine. -/
  Stack : String
  /-- Models the text that `fmt` writes for an operand under the verb `%+v`. -/
  formatPlusV : Value → String

/-- The function `bytes.Split(s, sep)` for a separator of one byte: the pieces of `s`
between the occurrences of `sep`, one more piece than there are occurrences. -/
def bytes.Split (sep : Char) : List Char → List (List Char)
  | [] => [[]]
  | c :: cs =>
      if c = sep then
        [] :: bytes.Split sep cs
      else
        match bytes.Split sep cs with
        | piece :: rest => (c :: piece) :: rest
        | [] => [[c]]

/-- The function `bytes.Join(s, sep)`: the elements of `s` with `sep` between them. -/
def bytes.Join (sep : List Char) : List (List Char) → List Char
  | [] => []
  | [a] => a
  | a :: b :: rest => a ++ sep ++ bytes.Join sep (b :: rest)

/-- The function `PanicToErr` (`errors.go`, lines 126-134). The slice expression
`[6:]` panics when `bytes.Split` returns fewer than 6 pieces. `fmt.Errorf` with the
constant `msgFmt` writes the operands in order between the fixed parts of the format:
`%s` a string or byte slice as it is, `%d` an `int` in base 10, `%+v` the recovered
value as `formatPlusV` gives it; its result is an error that is not a `*ErrsErr`. -/
def PanicToErr (rt : PanicRuntime) (recoverReturnVal : Option Value) : Option error :=
  match recoverReturnVal with
  | some v =>
      let loc := getCallersInfo rt.toRuntime 4
      let pieces := bytes.Split '\n' rt.Stack.data
      if pieces.length < 6 then
        none
      else
        let prettyStack := String.mk (bytes.Join ['\n', '\t'] (pieces.drop 6))
        some (.foreign (loc.filename ++ ":" ++ toString loc.lineNum ++ " " ++ loc.funcName
          ++ "(): A panic occured, but was recovered; Details: " ++ rt.formatPlusV v
          ++ ";\n\t*** Stack Trace ***\n\t" ++ prettyStack ++ "*** End Stack Trace ***\n"))
  | none => some .nil

/-- The text whose lines are `ls`, every line ended by a newline. -/
def unlines : List String → String
  | [] => ""
  | l :: ls => l ++ "\n" ++ unlines ls

/-- The lines of a text as `strings.Split(text, "\n")` gives them in `TestPanicToErr`
(`errors_test.go`, line 104). -/
def textLines (text : String) : List String :=
  (bytes.Split '\n' text.data).map String.mk

/-- The stack of the test `TestPanicToErr` as `debug.Stack()` reports it inside
`PanicToErr`: two lines for each frame, the frames of `PanicToErr`, of the deferred
function and of the runtime's panic first. -/
def stackLinesPanicy : List String :=
  [ "/go/src/errs/errors.go:130 (0x1)",
    "\tPanicToErr: prettyStack := bytes.Join(...)",
    "/go/src/errs/errors_test.go:103 (0x2)",
    "\tfunc.001: text := PanicToErr(recover()).Error()",
    "/go/src/runtime/panic.c:248 (0x3)",
    "\tpanic: runtime·newstackcall(d->fn, (byte*)d->args, d->siz);",
    "/go/src/errs/errors_test.go:140 (0x4)",
    "\tpanicyFunc: panic(\"Test Panic\")",
    "/go/src/runtime/proc.c:1445 (0x5)",
    "\tgoexit: runtime·goexit(void)" ]

/-- The runtime inside `PanicToErr` when it is called from the deferred function of
`TestPanicToErr`: depth 4 is the frame of `panicyFunc`. -/
def rtPanicy : PanicRuntime :=
  { Caller := fun depth =>
      if depth = 4 then (9, "/go/src/errs/errors_test.go", 140, true) else (0, "", 0, false)
    FuncForPCName := fun pc => if pc = 9 then "github.com/tarndt/errs.panicyFunc" else ""
    pathBase := fun s =>
      if s = "/go/src/errs/errors_test.go" then "errors_test.go"
      else if s = "github.com/tarndt/errs.panicyFunc" then "errs.panicyFunc"
      else s
    Sprintf := fun format _ => format
    Stack := unlines stackLinesPanicy
    formatPlusV := fun v =>
      match v with
      | .str s => s
      | .int i => toString i }

/-- The runtime inside `PanicToErr("boom")` called from `main.main` when the source
files cannot be read: `debug.Stack()` then reports one line for each of the four
frames. -/
def rtShortStack : PanicRuntime :=
  { Caller := fun _ => (0, "", 0, false)
    FuncForPCName := fun _ => ""
    pathBase := fun s => s
    Sprintf := fun format _ => format
    Stack := "/go/src/errs/errors.go:130 (0x1)\n/app/main.go:9 (0x2)\n"
      ++ "/go/src/runtime/proc.c:255 (0x3)\n/go/src/runtime/proc.c:1445 (0x4)\n"
    formatPlusV := fun v =>
      match v with
      | .str s => s
      | .int i => toString i }

/-! ## Lemmas on the rendering loop -/

theorem chain_cons (n : String × ErrorLocation) (ns : List (String × ErrorLocation))
    (last : error) : chain (n :: ns) last = .errsErr n.1 n.2 (chain ns last) := rfl

theorem chain_nil (last : error) : chain [] last = last := rfl

theorem intercalate_go_append (sep acc x : String) (l : List String) :
    String.intercalate.go (acc ++ x) sep l = acc ++ String.intercalate.go x sep l := by
  induction l generalizing x with
  | nil => simp [String.intercalate.go]
  | cons a as ih =>
    simp only [String.intercalate.go]
    rw [String.append_assoc, String.append_assoc, ih, String.append_assoc]

theorem intercalate_cons_cons (sep a b : String) (l : List String) :
    sep.intercalate (a :: b :: l) = a ++ sep ++ sep.intercalate (b :: l) := by
  simp only [String.intercalate, String.intercalate.go]
  rw [String.append_assoc, intercalate_go_append, intercalate_go_append, String.append_assoc]

theorem loop_chain_nodes (sep : String) (ns : List (String × ErrorLocation))
    (n : String × ErrorLocation) (Msg msgBuf : String) :
    ErrsErr.Error.loop sep (chain (n :: ns) .nil) Msg msgBuf
      = some (String.intercalate.go (msgBuf ++ Msg) sep (msgs (n :: ns))) := by
  induction ns generalizing n Msg msgBuf with
  | nil => simp [chain, msgs, ErrsErr.Error.loop, String.intercalate.go]
  | cons n' ns' ih =>
    rw [chain_cons, chain_cons, ErrsErr.Error.loop]
    · rw [← chain_cons, ih]
      simp [msgs, String.intercalate.go]
    · intro h; cases h

theorem loop_chain_foreign (sep : String) (ns : List (String × ErrorLocation))
    (text Msg msgBuf : String) :
    ErrsErr.Error.loop sep (chain ns (.foreign text)) Msg msgBuf = none := by
  induction ns generalizing Msg msgBuf with
  | nil => simp [chain, ErrsErr.Error.loop]
  | cons n ns' ih =>
    cases ns' with
    | nil => simp [chain, ErrsErr.Error.loop]
    | cons n' ns'' =>
      rw [chain_cons, chain_cons, ErrsErr.Error.loop]
      · rw [← chain_cons, ih]
      · intro h; cases h

theorem Error_chain_nodes (g : Globals) (n : String × ErrorLocation)
    (ns : List (String × ErrorLocation)) :
    (chain (n :: ns) .nil).Error g = some (g.MultiLineErrorJoin.intercalate (msgs (n :: ns))) := by
  cases ns with
  | nil => simp [chain, msgs, error.Error, ErrsErr.Error, String.intercalate, String.intercalate.go]
  | cons n' ns' =>
    rw [chain_cons, error.Error, chain_cons, ErrsErr.Error]
    · rw [← chain_cons, loop_chain_nodes]
      simp [msgs, String.intercalate]
    · intro h; cases h

theorem utf8ByteSize_eq_zero_iff (s : String) : s.utf8ByteSize = 0 ↔ s = "" := by
  cases s with
  | mk cs => simp [String.utf8ByteSize_mk, String.utf8Len_eq_zero, String.ext_iff]

theorem fmtErrMsg_empty (rt : Runtime) (args : List Value) :
    fmtErrMsg rt "" args = "An unknown error occured" := by
  simp [fmtErrMsg, utf8ByteSize_eq_zero_iff]

theorem fmtErrMsg_no_args (rt : Runtime) (m : String) (hm : m ≠ "") :
    fmtErrMsg rt m [] = m := by
  simp [fmtErrMsg, utf8ByteSize_eq_zero_iff, hm]

theorem fmtErrMsg_args (rt : Runtime) (m : String) (hm : m ≠ "") (a : Value)
    (as : List Value) : fmtErrMsg rt m (a :: as) = rt.Sprintf m (a :: as) := by
  simp [fmtErrMsg, utf8ByteSize_eq_zero_iff, hm]

theorem Error_node_over_chain (g : Globals) (Msg : String) (Loc : ErrorLocation)
    (n : String × ErrorLocation) (ns : List (String × ErrorLocation)) :
    (error.errsErr Msg Loc (chain (n :: ns) .nil)).Error g
      = some (Msg ++ g.MultiLineErrorJoin ++ g.MultiLineErrorJoin.intercalate (n.1 :: msgs ns)) := by
  have h := Error_chain_nodes g (Msg, Loc) (n :: ns)
  rw [chain_cons] at h
  rw [h]
  simp only [msgs, List.map_cons]
  rw [intercalate_cons_cons]

/-! ## Lemmas on the walk to the root -/

theorem GetRootErr_eq_loop (err : error) : GetRootErr err = GetRootErr.loop err := by
  cases err <;> simp [GetRootErr, GetRootErr.loop]

theorem GetRootErr_loop_node (Msg : String) (Loc : ErrorLocation) (Parent : error)
    (h : Parent ≠ .nil) :
    GetRootErr.loop (.errsErr Msg Loc Parent) = GetRootErr.loop Parent := by
  cases Parent with
  | nil => exact absurd rfl h
  | errsErr m l p => rw [GetRootErr.loop]; intro h'; cases h'
  | foreign t => rw [GetRootErr.loop]; intro h'; cases h'

theorem isLast_node_false (Msg : String) (Loc : ErrorLocation) (Parent : error)
    (h : Parent ≠ .nil) : (error.errsErr Msg Loc Parent).isLast = false := by
  cases Parent with
  | nil => exact absurd rfl h
  | errsErr m l p => rfl
  | foreign t => rfl

theorem GetRootErr_loop_first_last (err : error) :
    ∃ n, GetRootErr.loop err = err.follow n ∧ (err.follow n).isLast = true ∧
      ∀ m, m < n → (err.follow m).isLast = false := by
  induction err with
  | nil => exact ⟨0, rfl, rfl, fun m hm => absurd hm (Nat.not_lt_zero m)⟩
  | foreign t => exact ⟨0, rfl, rfl, fun m hm => absurd hm (Nat.not_lt_zero m)⟩
  | errsErr Msg Loc Parent ih =>
    by_cases h : Parent = .nil
    · subst h
      exact ⟨0, rfl, rfl, fun m hm => absurd hm (Nat.not_lt_zero m)⟩
    · obtain ⟨n, hn, hlast, hfirst⟩ := ih
      refine ⟨n + 1, ?_, hlast, ?_⟩
      · rw [GetRootErr_loop_node Msg Loc Parent h, hn]
        rfl
      · intro m hm
        cases m with
        | zero => exact isLast_node_false Msg Loc Parent h
        | succ k => exact hfirst k (Nat.lt_of_succ_lt_succ hm)

theorem GetRootErr_loop_chain (ns : List (String × ErrorLocation)) (last : error)
    (h : last ≠ .nil) : GetRootErr.loop (chain ns last) = GetRootErr.loop last := by
  induction ns with
  | nil => rfl
  | cons n ns' ih =>
    rw [chain_cons, GetRootErr_loop_node, ih]
    cases ns' with
    | nil => exact h
    | cons n' ns'' => intro h'; cases h'

/-! ## Rendering -/

/-- C1: for every separator and every chain of `k >= 1` nodes whose last node has no
parent, `Error()` returns the messages of the nodes, outermost first, joined by the
separator (so `k - 1` separators, none leading or trailing); for a single node the
text is exactly the stored message. -/
theorem Error_chain_of_nodes (g : Globals) (n : String × ErrorLocation)
    (ns : List (String × ErrorLocation)) :
    (chain (n :: ns) .nil).Error g
        = some (g.MultiLineErrorJoin.intercalate (n.1 :: msgs ns)) ∧
      (error.errsErr n.1 n.2 .nil).Error g = some n.1 := by
  refine ⟨Error_chain_nodes g n ns, ?_⟩
  simp [error.Error, ErrsErr.Error]

/-- C2: on a chain of `k >= 1` nodes whose last node has a foreign error as its
parent, `Error()` does not return the joined text: the failed type assertion leaves
`err` nil and the evaluation of `err.Parent` panics. This holds at the concrete chain
`Append(f, "ctx")` with `f.Error() = "disk full"` and at every such chain. -/
theorem Error_foreign_parent_panics :
    (Append initGlobals rtSubB (.foreign "disk full") "ctx" []).Error initGlobals = none ∧
      (Append initGlobals rtSubB (.foreign "disk full") "ctx" []).Error initGlobals
        ≠ some ("errors_test.go:69 errs.subB(): ctx" ++ "; Details:\n\t" ++ "disk full") ∧
      ∀ (g : Globals) (n : String × ErrorLocation) (ns : List (String × ErrorLocation))
        (text : String), (chain (n :: ns) (.foreign text)).Error g = none := by
  refine ⟨by decide, by decide, ?_⟩
  intro g n ns text
  rw [chain_cons, error.Error]
  cases ns with
  | nil => simp [chain, ErrsErr.Error, ErrsErr.Error.loop]
  | cons n' ns' =>
    rw [chain_cons, ErrsErr.Error]
    · rw [← chain_cons, loop_chain_foreign]
    · intro h; cases h

/-! ## Root and location extraction -/

/-- C3: `GetRootErr(err)` is the first error reached by following `Parent` links from
`err` that is a node with no parent or not a node at all. The root of
`Append(Append(New(a), b), c)`, and of a chain of any depth over `New(a)`, is the node
built by `New(a)`; a foreign error is returned unchanged, whether passed directly or
found at the end of a chain of nodes. -/
theorem GetRootErr_is_last_of_chain (err : error) :
    (∃ n, GetRootErr err = err.follow n ∧ (err.follow n).isLast = true ∧
        ∀ m, m < n → (err.follow m).isLast = false) ∧
      (∀ (g : Globals) (rta rtb rtc : Runtime) (a b c : String) (aa ab ac : List Value),
        GetRootErr (Append g rtc (Append g rtb (New g rta a aa) b ab) c ac) = New g rta a aa) ∧
      (∀ (g : Globals) (rta : Runtime) (a : String) (aa : List Value)
        (ns : List (String × ErrorLocation)),
        GetRootErr (chain ns (New g rta a aa)) = New g rta a aa) ∧
      (∀ text : String, GetRootErr (.foreign text) = .foreign text) ∧
      (∀ (text : String) (ns : List (String × ErrorLocation)),
        GetRootErr (chain ns (.foreign text)) = .foreign text) := by
  refine ⟨?_, ?_, ?_, ?_, ?_⟩
  · rw [GetRootErr_eq_loop]
    exact GetRootErr_loop_first_last err
  · intro g rta rtb rtc a b c aa ab ac
    rfl
  · intro g rta a aa ns
    rw [GetRootErr_eq_loop, GetRootErr_loop_chain]
    · rfl
    · intro h; cases h
  · intro text
    rfl
  · intro text ns
    rw [GetRootErr_eq_loop, GetRootErr_loop_chain]
    · rfl
    · intro h; cases h

/-- C4: `GetErrLoc` returns the stored `Loc` of a node and the unknown location
`{"Unknown Function", "Unknown File", -1}` for nil and for a foreign error; for a node
with a parent it is the location of that node, not the location of an ancestor. -/
theorem GetErrLoc_own_location :
    (∀ (Msg : String) (Loc : ErrorLocation) (Parent : error),
        GetErrLoc (.errsErr Msg Loc Parent) = Loc) ∧
      GetErrLoc .nil = ⟨"Unknown Function", "Unknown File", -1⟩ ∧
      (∀ text : String, GetErrLoc (.foreign text) = ⟨"Unknown Function", "Unknown File", -1⟩) ∧
      (∀ (Msg pMsg : String) (Loc pLoc : ErrorLocation) (pParent : error),
        GetErrLoc (.errsErr Msg Loc (.errsErr pMsg pLoc pParent)) = Loc) :=
  ⟨fun _ _ _ => rfl, rfl, fun _ => rfl, fun _ _ _ _ _ => rfl⟩

/-! ## The call-site locator -/

/-- C5: when `runtime.Caller` reports `ok = false` and returns its zero values,
`getCallersInfo` returns `{"Unknown Function", "", 0}`: the file and the line are the
zero values stored by the assignment in the `if` header, and the result is not the
unknown location `{"Unknown Function", "Unknown File", -1}`. -/
theorem getCallersInfo_unresolved_frame (rt : Runtime) (depth : Int)
    (h : rt.Caller depth = (0, "", 0, false)) :
    getCallersInfo rt depth = ⟨"Unknown Function", "", 0⟩ ∧
      getCallersInfo rt depth ≠ unknownLoc := by
  have h1 : getCallersInfo rt depth = ⟨"Unknown Function", "", 0⟩ := by
    simp [getCallersInfo, h]
  refine ⟨h1, ?_⟩
  rw [h1]
  decide

/-- Witness for `getCallersInfo_unresolved_frame`: depth 2 in a runtime that resolves
no frame. -/
theorem getCallersInfo_unresolved_frame_witness :
    rtNoFrame.Caller 2 = (0, "", 0, false) ∧
      getCallersInfo rtNoFrame 2 = ⟨"Unknown Function", "", 0⟩ ∧
      getCallersInfo rtNoFrame 2 ≠ unknownLoc :=
  ⟨rfl, getCallersInfo_unresolved_frame rtNoFrame 2 rfl⟩

/-! ## Construction and the package variables -/

/-- C6, as claimed, fails: a node built by `New` under the default formatter and
rendered after a formatter that drops the location is installed still shows the
location, where the same construction under the new formatter renders `"x"`. -/
theorem Error_ignores_formatter_at_render_time :
    (New initGlobals rtSubB "x" []).Error plainGlobals
        = some "errors_test.go:69 errs.subB(): x" ∧
      (New plainGlobals rtSubB "x" []).Error plainGlobals = some "x" ∧
      (New initGlobals rtSubB "x" []).Error plainGlobals
        ≠ (New plainGlobals rtSubB "x" []).Error plainGlobals := by
  decide

/-- C6, amended: the text of a node is fixed by the formatter installed when it was
built. For a node built under `gf` and rendered under `gr`, `Error()` shows the text
produced by the formatter of `gf`, joined to the text of its ancestors by the separator
of `gr`, and the formatter installed at render time has no influence on the result. -/
theorem Error_uses_construction_formatter (gf gr : Globals) (rt : Runtime) (m : String)
    (args : List Value) (n : String × ErrorLocation) (ns : List (String × ErrorLocation)) :
    (New gf rt m args).Error gr
        = some (gf.ErrorFormatter (fmtErrMsg rt m args) (getCallersInfo rt 2)) ∧
      (Append gf rt (chain (n :: ns) .nil) m args).Error gr
        = some (gf.ErrorFormatter (fmtErrMsg rt m args) (getCallersInfo rt 2)
            ++ gr.MultiLineErrorJoin ++ gr.MultiLineErrorJoin.intercalate (n.1 :: msgs ns)) ∧
      ∀ (e : error) (sep : String) (f f' : String → ErrorLocation → String),
        e.Error ⟨sep, f⟩ = e.Error ⟨sep, f'⟩ := by
  refine ⟨?_, ?_, ?_⟩
  · simp [New, error.Error, ErrsErr.Error]
  · exact Error_node_over_chain gr _ _ n ns
  · intro e sep f f'
    cases e <;> rfl

/-- C7: for every chain `e1` that consists only of nodes (a root built by `New`
included) and every `e2 = Append(e1, m, args...)`, `e1.Error()` returns a text `t1` and
`e2.Error()` returns the message of `e2`, the separator, and `t1`. -/
theorem Error_Append_unfolds (g gc : Globals) (rt rt1 : Runtime) (m m1 : String)
    (args args1 : List Value) (n : String × ErrorLocation)
    (ns : List (String × ErrorLocation)) :
    (∃ t1, (chain (n :: ns) .nil).Error g = some t1 ∧
        (Append gc rt (chain (n :: ns) .nil) m args).Error g
          = some (gc.ErrorFormatter (fmtErrMsg rt m args) (getCallersInfo rt 2)
              ++ g.MultiLineErrorJoin ++ t1)) ∧
      (∃ t1, (New gc rt1 m1 args1).Error g = some t1 ∧
        (Append gc rt (New gc rt1 m1 args1) m args).Error g
          = some (gc.ErrorFormatter (fmtErrMsg rt m args) (getCallersInfo rt 2)
              ++ g.MultiLineErrorJoin ++ t1)) := by
  refine ⟨⟨_, Error_chain_nodes g n ns, ?_⟩, ⟨_, rfl, ?_⟩⟩
  · exact Error_node_over_chain g _ _ n ns
  · simp [Append, New, error.Error, ErrsErr.Error, ErrsErr.Error.loop]

/-- C8: for a non-empty message, `New` and `Append` hand to the formatter the message
itself when there are no arguments, and `fmt.Sprintf(m, args...)` when there are. -/
theorem fmtErrMsg_nonempty_message (g : Globals) (rt : Runtime) (p : error) (m : String)
    (hm : m ≠ "") :
    fmtErrMsg rt m [] = m ∧
      New g rt m []
        = .errsErr (g.ErrorFormatter m (getCallersInfo rt 2)) (getCallersInfo rt 2) .nil ∧
      Append g rt p m []
        = .errsErr (g.ErrorFormatter m (getCallersInfo rt 2)) (getCallersInfo rt 2) p ∧
      ∀ (a : Value) (as : List Value),
        fmtErrMsg rt m (a :: as) = rt.Sprintf m (a :: as) ∧
        New g rt m (a :: as)
          = .errsErr (g.ErrorFormatter (rt.Sprintf m (a :: as)) (getCallersInfo rt 2))
              (getCallersInfo rt 2) .nil ∧
        Append g rt p m (a :: as)
          = .errsErr (g.ErrorFormatter (rt.Sprintf m (a :: as)) (getCallersInfo rt 2))
              (getCallersInfo rt 2) p := by
  refine ⟨fmtErrMsg_no_args rt m hm, ?_, ?_, ?_⟩
  · simp [New, fmtErrMsg_no_args rt m hm]
  · simp [Append, fmtErrMsg_no_args rt m hm]
  · intro a as
    refine ⟨fmtErrMsg_args rt m hm a as, ?_, ?_⟩
    · simp [New, fmtErrMsg_args rt m hm a as]
    · simp [Append, fmtErrMsg_args rt m hm a as]

/-- Witness for `fmtErrMsg_nonempty_message`: the message `"100%d done"` keeps its
`%d` without arguments, under the formatter that returns the text it is handed. -/
theorem fmtErrMsg_nonempty_message_witness :
    "100%d done" ≠ "" ∧ fmtErrMsg rtSubB "100%d done" [] = "100%d done" ∧
      (New plainGlobals rtSubB "100%d done" []).Error plainGlobals = some "100%d done" :=
  ⟨by decide,
    (fmtErrMsg_nonempty_message plainGlobals rtSubB .nil "100%d done" (by decide)).1,
    by decide⟩

/-- C9, as claimed, fails: for the empty message the text handed to the formatter is
not `"An unknown error occurred"`. -/
theorem fmtErrMsg_empty_not_occurred :
    fmtErrMsg rtSubB "" [] ≠ "An unknown error occurred" ∧
      New plainGlobals rtSubB "" []
        ≠ .errsErr "An unknown error occurred" (getCallersInfo rtSubB 2) .nil := by
  decide

/-- C9, amended: when the raw message is empty `New` hands to the formatter exactly
the text `"An unknown error occured"`, spelled as in the source and its tests. -/
theorem New_empty_message_default (g : Globals) (rt : Runtime) (args : List Value) :
    fmtErrMsg rt "" args = "An unknown error occured" ∧
      New g rt "" args
        = .errsErr (g.ErrorFormatter "An unknown error occured" (getCallersInfo rt 2))
            (getCallersInfo rt 2) .nil := by
  refine ⟨fmtErrMsg_empty rt args, ?_⟩
  simp [New, fmtErrMsg_empty rt args]

/-- C10: with the default formatter, for every non-empty message `m` without
arguments and every captured location `(file, line, func)`, `New(m).Error()` is
`file:line func(): m`, which ends with `m`. -/
theorem New_Error_default_formatter (g : Globals) (rt : Runtime) (m file func : String)
    (line : Int) (hg : g.ErrorFormatter = defFmtErrMsg) (hm : m ≠ "")
    (hloc : getCallersInfo rt 2 = ⟨func, file, line⟩) :
    (New g rt m []).Error g
        = some (file ++ ":" ++ toString line ++ " " ++ func ++ "(): " ++ m) ∧
      m.data <:+ (file ++ ":" ++ toString line ++ " " ++ func ++ "(): " ++ m).data := by
  refine ⟨?_, ?_⟩
  · simp [New, error.Error, ErrsErr.Error, fmtErrMsg_no_args rt m hm, hg, hloc, defFmtErrMsg]
  · rw [String.data_append]
    exact List.suffix_append _ _

/-- Witness for `New_Error_default_formatter`: `New("TestString")` called from line 69
of `errors_test.go`. -/
theorem New_Error_default_formatter_witness :
    initGlobals.ErrorFormatter = defFmtErrMsg ∧ "TestString" ≠ "" ∧
      getCallersInfo rtSubB 2 = ⟨"errs.subB", "errors_test.go", 69⟩ ∧
      (New initGlobals rtSubB "TestString" []).Error initGlobals
        = some "errors_test.go:69 errs.subB(): TestString" :=
  ⟨rfl, by decide, by decide,
    (New_Error_default_formatter initGlobals rtSubB "TestString" "errors_test.go"
      "errs.subB" 69 rfl (by decide) (by decide)).1⟩

/-- C11: `New` returns a root node (no parent) whose `Loc` is the captured
location; `Append(p, ...)` returns a node with the `Msg` and `Loc` that `New` produces
for the same message, arguments and call site, and with `Parent = p`. `Append(nil, ...)`
equals `New(...)` and renders as the single message, without a separator. -/
theorem New_Append_same_construction (g gr : Globals) (rt : Runtime) (m : String)
    (args : List Value) (p : error) :
    New g rt m args
        = .errsErr (g.ErrorFormatter (fmtErrMsg rt m args) (getCallersInfo rt 2))
            (getCallersInfo rt 2) .nil ∧
      (New g rt m args).step = .nil ∧
      GetErrLoc (New g rt m args) = getCallersInfo rt 2 ∧
      Append g rt p m args
        = .errsErr (g.ErrorFormatter (fmtErrMsg rt m args) (getCallersInfo rt 2))
            (getCallersInfo rt 2) p ∧
      (Append g rt p m args).step = p ∧
      GetErrLoc (Append g rt p m args) = GetErrLoc (New g rt m args) ∧
      Append g rt .nil m args = New g rt m args ∧
      (Append g rt .nil m args).Error gr
        = some (g.ErrorFormatter (fmtErrMsg rt m args) (getCallersInfo rt 2)) :=
  ⟨rfl, rfl, rfl, rfl, rfl, rfl, rfl, rfl⟩

theorem GetRootErr_loop_eq_nil (err : error) : GetRootErr.loop err = .nil ↔ err = .nil := by
  induction err with
  | nil => exact ⟨fun _ => rfl, fun _ => rfl⟩
  | foreign t => exact ⟨fun h => h, fun h => h⟩
  | errsErr Msg Loc Parent ih =>
    by_cases h : Parent = .nil
    · subst h
      exact ⟨fun h' => h', fun h' => h'⟩
    · rw [GetRootErr_loop_node Msg Loc Parent h]
      constructor
      · intro h'
        exact absurd (ih.mp h') h
      · intro h'
        cases h'

/-- C12: `GetRootErr(err)` is nil if and only if `err` is nil: `GetRootErr(nil)` is
nil, and the root of a node or of a foreign error, at any chain depth, is not nil. -/
theorem GetRootErr_nil_iff (err : error) :
    (GetRootErr err = .nil ↔ err = .nil) ∧ GetRootErr .nil = .nil := by
  refine ⟨?_, rfl⟩
  rw [GetRootErr_eq_loop]
  exact GetRootErr_loop_eq_nil err

/-- C17: `ConstErr(s).Error()` is `s` and `ErrNotImplemented.Error()` is
`"This feature is not implemented"`. A `ConstErr` is not a node: as an `error` it
renders as `s`, `GetErrLoc` returns the unknown location for it and `GetRootErr`
returns it unchanged. -/
theorem ConstErr_is_plain_text (g : Globals) (s : String) :
    (ConstErr.mk s).Error = s ∧
      ErrNotImplemented.Error = "This feature is not implemented" ∧
      (ConstErr.mk s).toError.Error g = some s ∧
      (∀ (Msg : String) (Loc : ErrorLocation) (Parent : error),
        (ConstErr.mk s).toError ≠ .errsErr Msg Loc Parent) ∧
      GetErrLoc (ConstErr.mk s).toError = ⟨"Unknown Function", "Unknown File", -1⟩ ∧
      GetRootErr (ConstErr.mk s).toError = (ConstErr.mk s).toError ∧
      GetErrLoc ErrNotImplemented.toError = ⟨"Unknown Function", "Unknown File", -1⟩ ∧
      GetRootErr ErrNotImplemented.toError = ErrNotImplemented.toError := by
  refine ⟨rfl, rfl, rfl, ?_, rfl, rfl, rfl, rfl⟩
  intro Msg Loc Parent h
  cases h

/-- C18: for the empty message and every argument list, `New` and `Append` hand
`"An unknown error occured"` to the formatter: the arguments are ignored and
`fmt.Sprintf` is not applied. With the default formatter `New("").Error()` and
`Append(nil, "").Error()` are `file:line func(): An unknown error occured`. -/
theorem empty_message_ignores_args (g : Globals) (rt : Runtime) (args : List Value)
    (p : error) :
    fmtErrMsg rt "" args = "An unknown error occured" ∧
      New g rt "" args
        = .errsErr (g.ErrorFormatter "An unknown error occured" (getCallersInfo rt 2))
            (getCallersInfo rt 2) .nil ∧
      Append g rt p "" args
        = .errsErr (g.ErrorFormatter "An unknown error occured" (getCallersInfo rt 2))
            (getCallersInfo rt 2) p ∧
      (New initGlobals rt "" []).Error initGlobals
        = some ((getCallersInfo rt 2).filename ++ ":" ++ toString (getCallersInfo rt 2).lineNum
            ++ " " ++ (getCallersInfo rt 2).funcName ++ "(): " ++ "An unknown error occured") ∧
      (Append initGlobals rt .nil "" []).Error initGlobals
        = some ((getCallersInfo rt 2).filename ++ ":" ++ toString (getCallersInfo rt 2).lineNum
            ++ " " ++ (getCallersInfo rt 2).funcName ++ "(): " ++ "An unknown error occured") := by
  have h := fmtErrMsg_empty rt args
  have h0 := fmtErrMsg_empty rt []
  refine ⟨h, ?_, ?_, ?_, ?_⟩
  · simp [New, h]
  · simp [Append, h]
  · simp [New, error.Error, ErrsErr.Error, h0, initGlobals, defFmtErrMsg]
  · simp [Append, error.Error, ErrsErr.Error, h0, initGlobals, defFmtErrMsg]

/-- C19: appending never changes the root. For a non-nil error `e`, node or foreign,
`GetRootErr(Append(e, m, args...))` is `GetRootErr(e)`; for `e = nil` it is the node
that `Append` has just built. -/
theorem GetRootErr_Append (g : Globals) (rt : Runtime) (e : error) (m : String)
    (args : List Value) (he : e ≠ .nil) :
    GetRootErr (Append g rt e m args) = GetRootErr e ∧
      GetRootErr (Append g rt .nil m args) = Append g rt .nil m args := by
  refine ⟨?_, rfl⟩
  rw [GetRootErr_eq_loop, GetRootErr_eq_loop]
  exact GetRootErr_loop_node _ _ e he

/-- Witness for `GetRootErr_Append`: appending `"ctx"` to a foreign error leaves the
foreign error as the root. -/
theorem GetRootErr_Append_witness :
    error.foreign "disk full" ≠ .nil ∧
      GetRootErr (Append initGlobals rtSubB (.foreign "disk full") "ctx" [])
        = .foreign "disk full" :=
  ⟨by decide,
    (GetRootErr_Append initGlobals rtSubB (.foreign "disk full") "ctx" [] (by decide)).1⟩

/-! ## Chains built through `New` and `Append` -/

theorem chain_append (a b : List (String × ErrorLocation)) (last : error) :
    chain (a ++ b) last = chain a (chain b last) := by
  simp [chain, List.foldr_append]

theorem appendAll_eq_chain (g : Globals) (calls : List Call) (e : error) :
    appendAll g e calls
      = chain (calls.reverse.map (fun c => (c.Msg g, getCallersInfo c.rt 2))) e := by
  induction calls generalizing e with
  | nil => rfl
  | cons c cs ih =>
    have h : appendAll g e (c :: cs) = appendAll g (Append g c.rt e c.errMsg c.args) cs := rfl
    rw [h, ih, List.reverse_cons, List.map_append, chain_append]
    rfl

theorem Error_chain_ne_nil (g : Globals) (l : List (String × ErrorLocation)) (h : l ≠ []) :
    (chain l .nil).Error g = some (g.MultiLineErrorJoin.intercalate (msgs l)) := by
  cases l with
  | nil => exact absurd rfl h
  | cons n ns => exact Error_chain_nodes g n ns

theorem intercalate_ends_with_last (sep r : String) (l : List String) (a : String) :
    ∃ pre, sep.intercalate (a :: (l ++ [r])) = pre ++ (sep ++ r) := by
  induction l generalizing a with
  | nil =>
    refine ⟨a, ?_⟩
    rw [List.nil_append, intercalate_cons_cons, String.append_assoc]
    rfl
  | cons b l' ih =>
    obtain ⟨pre, hpre⟩ := ih b
    refine ⟨a ++ sep ++ pre, ?_⟩
    rw [List.cons_append, intercalate_cons_cons, hpre, String.append_assoc (a ++ sep)]

/-- C15: the join separator is read when the text is rendered. A chain of `k >= 2`
nodes built by `New` and `Append` while the separator of `gs` was installed, rendered
under `gt`, is the stored messages joined by the separator of `gt`; the separator
installed during construction has no influence on the text. -/
theorem Error_uses_render_separator (gs gt : Globals) (s : String) (c0 c1 : Call)
    (cs : List Call) :
    (appendAll gs (New gs c0.rt c0.errMsg c0.args) (c1 :: cs)).Error gt
        = some (gt.MultiLineErrorJoin.intercalate
            ((c1 :: cs).reverse.map (Call.Msg gs) ++ [c0.Msg gs])) ∧
      (appendAll ⟨s, gs.ErrorFormatter⟩ (New ⟨s, gs.ErrorFormatter⟩ c0.rt c0.errMsg c0.args)
          (c1 :: cs)).Error gt
        = (appendAll gs (New gs c0.rt c0.errMsg c0.args) (c1 :: cs)).Error gt := by
  have key : ∀ g : Globals,
      (appendAll g (New g c0.rt c0.errMsg c0.args) (c1 :: cs)).Error gt
        = some (gt.MultiLineErrorJoin.intercalate
            ((c1 :: cs).reverse.map (Call.Msg g) ++ [c0.Msg g])) := by
    intro g
    have hNew : New g c0.rt c0.errMsg c0.args
        = chain [(c0.Msg g, getCallersInfo c0.rt 2)] .nil := rfl
    rw [appendAll_eq_chain, hNew, ← chain_append, Error_chain_ne_nil]
    · simp [msgs, Function.comp_def]
    · simp
  refine ⟨key gs, ?_⟩
  rw [key gs, key ⟨s, gs.ErrorFormatter⟩]
  rfl

/-- C20: rendering and root extraction agree on the innermost cause. For a chain `e`
of nodes only, with `r` its last node, `e.Error()` ends with `GetRootErr(e).Error()`;
when `e` has a parent it ends with the separator followed by that text. -/
theorem Error_ends_with_root (g : Globals) (ns : List (String × ErrorLocation))
    (r n : String × ErrorLocation) :
    (∃ t root, (chain (ns ++ [r]) .nil).Error g = some t ∧
        (GetRootErr (chain (ns ++ [r]) .nil)).Error g = some root ∧
        root.data <:+ t.data) ∧
      (∃ t root, (chain (n :: ns ++ [r]) .nil).Error g = some t ∧
        (GetRootErr (chain (n :: ns ++ [r]) .nil)).Error g = some root ∧
        (g.MultiLineErrorJoin ++ root).data <:+ t.data) := by
  have hroot : ∀ l : List (String × ErrorLocation),
      GetRootErr (chain (l ++ [r]) .nil) = .errsErr r.1 r.2 .nil := by
    intro l
    rw [GetRootErr_eq_loop, chain_append, GetRootErr_loop_chain]
    · rfl
    · intro h; cases h
  have hlong : ∀ (a : String × ErrorLocation) (l : List (String × ErrorLocation)),
      ∃ pre, (chain (a :: l ++ [r]) .nil).Error g
        = some (pre ++ (g.MultiLineErrorJoin ++ r.1)) := by
    intro a l
    obtain ⟨pre, hpre⟩ := intercalate_ends_with_last g.MultiLineErrorJoin r.1 (msgs l) a.1
    refine ⟨pre, ?_⟩
    rw [List.cons_append, Error_chain_nodes, ← hpre]
    simp [msgs]
  constructor
  · cases ns with
    | nil =>
      refine ⟨r.1, r.1, ?_, ?_, List.suffix_refl _⟩
      · simp [chain, error.Error, ErrsErr.Error]
      · rw [hroot]; rfl
    | cons a l =>
      obtain ⟨pre, hpre⟩ := hlong a l
      refine ⟨_, r.1, hpre, ?_, ?_⟩
      · rw [hroot]; rfl
      · rw [← String.append_assoc, String.data_append]
        exact List.suffix_append _ _
  · obtain ⟨pre, hpre⟩ := hlong n ns
    refine ⟨_, r.1, hpre, ?_, ?_⟩
    · rw [hroot]; rfl
    · rw [String.data_append]
      exact List.suffix_append _ _

/-! ## Termination of the walks -/

theorem follow_reaches_last (e : error) :
    ∃ n, n ≤ e.length ∧ (e.follow n).isLast = true := by
  induction e with
  | nil => exact ⟨0, Nat.le_refl _, rfl⟩
  | foreign t => exact ⟨0, Nat.zero_le _, rfl⟩
  | errsErr Msg Loc Parent ih =>
    by_cases h : Parent = .nil
    · subst h
      exact ⟨0, Nat.zero_le _, rfl⟩
    · obtain ⟨n, hn, hlast⟩ := ih
      exact ⟨n + 1, Nat.succ_le_succ hn, hlast⟩

theorem GetRootErr_loopFuel_enough (err : error) (fuel : Nat) (hne : err ≠ .nil)
    (enough : err.length ≤ fuel) :
    GetRootErr.loopFuel fuel err = some (GetRootErr.loop err) := by
  induction err generalizing fuel with
  | nil => exact absurd rfl hne
  | foreign t =>
    cases fuel with
    | zero => exact absurd enough (Nat.not_succ_le_zero 0)
    | succ f => rfl
  | errsErr Msg Loc Parent ih =>
    cases fuel with
    | zero => exact absurd enough (Nat.not_succ_le_zero _)
    | succ f =>
      have hf : Parent.length ≤ f := Nat.le_of_succ_le_succ enough
      cases hP : Parent with
      | nil => rfl
      | errsErr m l p =>
        have h1 := ih f (by rw [hP]; intro h; cases h) hf
        rw [hP] at h1
        rw [GetRootErr.loopFuel, GetRootErr.loop]
        · exact h1
        · intro h; cases h
        · intro h; cases h
      | foreign t =>
        have h1 := ih f (by rw [hP]; intro h; cases h) hf
        rw [hP] at h1
        rw [GetRootErr.loopFuel, GetRootErr.loop]
        · exact h1
        · intro h; cases h
        · intro h; cases h

theorem Error_loopFuel_enough (sep : String) (Parent : error) (fuel : Nat)
    (Msg msgBuf : String) (hne : Parent ≠ .nil) (enough : Parent.length ≤ fuel) :
    ErrsErr.Error.loopFuel sep fuel Parent Msg msgBuf
      = some (ErrsErr.Error.loop sep Parent Msg msgBuf) := by
  induction Parent generalizing fuel Msg msgBuf with
  | nil => exact absurd rfl hne
  | foreign t =>
    cases fuel with
    | zero => exact absurd enough (Nat.not_succ_le_zero 0)
    | succ f => rfl
  | errsErr pMsg pLoc pParent ih =>
    cases fuel with
    | zero => exact absurd enough (Nat.not_succ_le_zero _)
    | succ f =>
      have hf : pParent.length ≤ f := Nat.le_of_succ_le_succ enough
      cases hP : pParent with
      | nil => rfl
      | errsErr m l p =>
        have h1 := ih f pMsg (msgBuf ++ Msg ++ sep) (by rw [hP]; intro h; cases h) hf
        rw [hP] at h1
        rw [ErrsErr.Error.loopFuel, ErrsErr.Error.loop]
        · exact h1
        · intro h; cases h
        · intro h; cases h
      | foreign t =>
        have h1 := ih f pMsg (msgBuf ++ Msg ++ sep) (by rw [hP]; intro h; cases h) hf
        rw [hP] at h1
        rw [ErrsErr.Error.loopFuel, ErrsErr.Error.loop]
        · exact h1
        · intro h; cases h
        · intro h; cases h

theorem GetRootErr_isLast (err : error) : (GetRootErr err).isLast = true := by
  obtain ⟨n, hn, hlast, _⟩ := GetRootErr_loop_first_last err
  rw [GetRootErr_eq_loop, hn]
  exact hlast

/-- C16: a chain is finite and both walks stop within its length. From every error
`e` a last element (a node with no parent, or no node) is reached after at most
`e.length` `Parent` links. On a node over `e`, the loop of `GetRootErr` run for as many
iterations as the chain has errors returns the root, which is such a last element, and
the loop of `Error()` run for `e.length` iterations has stopped. `New` builds a chain
of length 1 and `Append` adds one to the length of the error it is given. -/
theorem walks_stop_within_chain_length (g : Globals) (rt : Runtime) (e : error)
    (Msg m text : String) (Loc : ErrorLocation) (args : List Value) :
    (∃ n, n ≤ e.length ∧ (e.follow n).isLast = true) ∧
      GetRootErr.loopFuel (error.errsErr Msg Loc e).length (.errsErr Msg Loc e)
        = some (GetRootErr (.errsErr Msg Loc e)) ∧
      (GetRootErr (.errsErr Msg Loc e)).isLast = true ∧
      GetRootErr.loopFuel (error.foreign text).length (.foreign text)
        = some (GetRootErr (.foreign text)) ∧
      ErrsErr.ErrorFuel g e.length Msg e = some (ErrsErr.Error g Msg e) ∧
      (New g rt m args).length = 1 ∧
      (Append g rt e m args).length = e.length + 1 := by
  refine ⟨follow_reaches_last e, ?_, GetRootErr_isLast _, rfl, ?_, rfl, rfl⟩
  · rw [GetRootErr_eq_loop]
    exact GetRootErr_loopFuel_enough _ _ (by intro h; cases h) (Nat.le_refl _)
  · cases he : e with
    | nil => rfl
    | errsErr pm pl pp =>
      exact Error_loopFuel_enough g.MultiLineErrorJoin _ _ Msg "" (by intro h; cases h)
        (Nat.le_refl _)
    | foreign t => rfl

/-! ## The panic bridge -/

theorem digitChar_ne_newline : ∀ d, d < 10 → Nat.digitChar d ≠ '\n' := by
  decide

theorem toDigitsCore_no_newline (fuel n : Nat) (ds : List Char) (h : '\n' ∉ ds) :
    '\n' ∉ Nat.toDigitsCore 10 fuel n ds := by
  induction fuel generalizing n ds with
  | zero => exact h
  | succ f ih =>
    have hd : '\n' ∉ Nat.digitChar (n % 10) :: ds := by
      intro hmem
      rcases List.mem_cons.mp hmem with h1 | h1
      · exact digitChar_ne_newline (n % 10) (Nat.mod_lt n (by decide)) h1.symm
      · exact h h1
    unfold Nat.toDigitsCore
    by_cases hz : n / 10 = 0
    · simp only [hz, if_true]
      exact hd
    · simp only [hz, if_false]
      exact ih (n / 10) _ hd

theorem Nat_toString_no_newline (n : Nat) : '\n' ∉ (toString n).data :=
  toDigitsCore_no_newline (n + 1) n [] (List.not_mem_nil _)

theorem Int_toString_no_newline (i : Int) : '\n' ∉ (toString i).data := by
  cases i with
  | ofNat n => exact Nat_toString_no_newline n
  | negSucc n =>
    show '\n' ∉ ("-" ++ toString (n + 1)).data
    rw [String.data_append]
    intro hmem
    rcases List.mem_append.mp hmem with h1 | h1
    · exact absurd h1 (by decide)
    · exact Nat_toString_no_newline (n + 1) h1

theorem Split_line (l rest : List Char) (h : '\n' ∉ l) :
    bytes.Split '\n' (l ++ '\n' :: rest) = l :: bytes.Split '\n' rest := by
  induction l with
  | nil => simp [bytes.Split]
  | cons c l' ih =>
    have hc : c ≠ '\n' := fun hc => h (hc ▸ List.mem_cons_self _ _)
    have hl : '\n' ∉ l' := fun hl => h (List.mem_cons_of_mem _ hl)
    rw [List.cons_append, bytes.Split, if_neg hc, ih hl]

theorem unlines_cons_data (l : String) (ls : List String) :
    (unlines (l :: ls)).data = l.data ++ '\n' :: (unlines ls).data := by
  simp [unlines, String.data_append]

theorem Split_unlines (ls : List String) (t : List Char) (h : ∀ l ∈ ls, '\n' ∉ l.data) :
    bytes.Split '\n' ((unlines ls).data ++ t) = ls.map String.data ++ bytes.Split '\n' t := by
  induction ls with
  | nil => rfl
  | cons l ls' ih =>
    rw [unlines_cons_data, List.append_assoc, List.cons_append, Split_line _ _ (h l (List.mem_cons_self _ _)),
      ih (fun x hx => h x (List.mem_cons_of_mem _ hx))]
    rfl

theorem Join_cons_of_ne_nil (sep a : List Char) (rest : List (List Char)) (h : rest ≠ []) :
    bytes.Join sep (a :: rest) = a ++ sep ++ bytes.Join sep rest := by
  cases rest with
  | nil => exact absurd rfl h
  | cons b r => rfl

theorem Join_trailing_empty (ms : List String) (X : List Char) :
    '\t' :: (bytes.Join ['\n', '\t'] (ms.map String.data ++ [[]]) ++ X)
      = (unlines (ms.map (fun m => "\t" ++ m))).data ++ '\t' :: X := by
  induction ms with
  | nil => rfl
  | cons m ms' ih =>
    rw [List.map_cons, List.cons_append, Join_cons_of_ne_nil _ _ _ (by simp), List.map_cons,
      unlines_cons_data, List.append_assoc, List.append_assoc, List.append_assoc,
      List.cons_append, List.cons_append, List.nil_append, ih]
    simp [String.data_append]

theorem unlines_append (a b : List String) : unlines (a ++ b) = unlines a ++ unlines b := by
  induction a with
  | nil => simp [unlines]
  | cons l a' ih => simp [unlines, ih, String.append_assoc]

theorem prettyStack_lines (ms : List String) (X : String) :
    "\t" ++ (String.mk (bytes.Join ['\n', '\t'] (ms.map String.data ++ [[]])) ++ X)
      = unlines (ms.map (fun m => "\t" ++ m)) ++ ("\t" ++ X) := by
  apply String.ext
  have h := Join_trailing_empty ms X.data
  simp only [String.data_append]
  exact h

theorem textLines_unlines (L : List String) (h : ∀ l ∈ L, '\n' ∉ l.data) :
    textLines (unlines L) = L ++ [""] := by
  have h1 := Split_unlines L [] h
  rw [List.append_nil] at h1
  rw [textLines, h1]
  simp [bytes.Split, List.map_map, Function.comp_def]

theorem not_mem_append_data (a b : String) (ha : '\n' ∉ a.data) (hb : '\n' ∉ b.data) :
    '\n' ∉ (a ++ b).data := by
  rw [String.data_append]
  intro hmem
  rcases List.mem_append.mp hmem with h1 | h1
  · exact ha h1
  · exact hb h1

theorem PanicToErr_of_pieces (rt : PanicRuntime) (value : Value)
    (h : 6 ≤ (bytes.Split '\n' rt.Stack.data).length) :
    PanicToErr rt (some value)
      = some (.foreign ((getCallersInfo rt.toRuntime 4).filename ++ ":"
          ++ toString (getCallersInfo rt.toRuntime 4).lineNum ++ " "
          ++ (getCallersInfo rt.toRuntime 4).funcName
          ++ "(): A panic occured, but was recovered; Details: " ++ rt.formatPlusV value
          ++ ";\n\t*** Stack Trace ***\n\t"
          ++ String.mk (bytes.Join ['\n', '\t'] ((bytes.Split '\n' rt.Stack.data).drop 6))
          ++ "*** End Stack Trace ***\n")) := by
  simp only [PanicToErr, if_neg (Nat.not_lt.mpr h)]

theorem PanicToErr_eq_nil_iff (rt : PanicRuntime) (v : Option Value) :
    PanicToErr rt v = some .nil ↔ v = none := by
  cases v with
  | none => exact ⟨fun _ => rfl, fun _ => rfl⟩
  | some value =>
    constructor
    · intro h
      unfold PanicToErr at h
      simp only at h
      split at h
      · cases h
      · cases h
    · intro h
      cases h

/-- C13: `PanicToErr` does not turn every recovered value that is not nil into an
error, although the comment above it says that it converts any non-nil value. For the
value `"boom"` and a stack of four lines `bytes.Split` returns five pieces, the slice
expression `[6:]` panics and no error is returned. The rest of the claim holds for
every runtime: `PanicToErr(nil)` is nil, and nil is returned only for a nil value. -/
theorem PanicToErr_short_stack_panics :
    (bytes.Split '\n' rtShortStack.Stack.data).length = 5 ∧
      PanicToErr rtShortStack (some (.str "boom")) = none ∧
      (¬ ∃ e, PanicToErr rtShortStack (some (.str "boom")) = some e ∧ e ≠ .nil) ∧
      (∀ rt : PanicRuntime, PanicToErr rt none = some .nil) ∧
      (∀ (rt : PanicRuntime) (v : Option Value), PanicToErr rt v = some .nil ↔ v = none) := by
  have h : PanicToErr rtShortStack (some (.str "boom")) = none := by decide
  refine ⟨by decide, h, ?_, fun _ => rfl, PanicToErr_eq_nil_iff⟩
  rintro ⟨e, he, _⟩
  rw [h] at he
  cases he

/-- C14: for a non-nil recovered value whose `%+v` text `v` has no newline, a captured
location `(file, line, func)` and a stack of at least 6 lines, each ended by a newline,
the text of `PanicToErr` is made of these lines, each ended by a newline:
`file:line func(): A panic occured, but was recovered; Details: v;`, then a tab and
`*** Stack Trace ***`, then the lines of the stack after its first 6, each after a
tab, then a tab and `*** End Stack Trace ***`. When `file` and `func` have no newline
either, splitting the text at its newlines gives exactly these lines and a last empty
piece. -/
theorem PanicToErr_text_lines (rt : PanicRuntime) (value : Value) (file func : String)
    (line : Int) (ls : List String)
    (hv : '\n' ∉ (rt.formatPlusV value).data)
    (hloc : getCallersInfo rt.toRuntime 4 = ⟨func, file, line⟩)
    (hstack : rt.Stack = unlines ls) (hls : ∀ l ∈ ls, '\n' ∉ l.data)
    (hlen : 6 ≤ ls.length) :
    ∃ text, PanicToErr rt (some value) = some (.foreign text) ∧
      text = unlines
        ([file ++ ":" ++ toString line ++ " " ++ func
            ++ "(): A panic occured, but was recovered; Details: " ++ rt.formatPlusV value ++ ";",
          "\t*** Stack Trace ***"]
          ++ (ls.drop 6).map (fun l => "\t" ++ l) ++ ["\t*** End Stack Trace ***"]) ∧
      ('\n' ∉ file.data → '\n' ∉ func.data →
        textLines text
          = [file ++ ":" ++ toString line ++ " " ++ func
              ++ "(): A panic occured, but was recovered; Details: " ++ rt.formatPlusV value ++ ";",
            "\t*** Stack Trace ***"]
            ++ (ls.drop 6).map (fun l => "\t" ++ l) ++ ["\t*** End Stack Trace ***", ""]) := by
  have hsplit : bytes.Split '\n' rt.Stack.data = ls.map String.data ++ [[]] := by
    have h1 := Split_unlines ls [] hls
    rw [List.append_nil] at h1
    rw [hstack, h1]
    rfl
  have hpieces : 6 ≤ (bytes.Split '\n' rt.Stack.data).length := by
    rw [hsplit, List.length_append, List.length_map]
    exact Nat.le_succ_of_le hlen
  have hdrop : (ls.map String.data ++ [[]]).drop 6
      = (ls.drop 6).map String.data ++ [[]] := by
    rw [List.drop_append_of_le_length (by rw [List.length_map]; exact hlen), List.map_drop]
  have htext : (file ++ ":" ++ toString line ++ " " ++ func
        ++ "(): A panic occured, but was recovered; Details: " ++ rt.formatPlusV value
        ++ ";\n\t*** Stack Trace ***\n\t"
        ++ String.mk (bytes.Join ['\n', '\t'] ((ls.drop 6).map String.data ++ [[]]))
        ++ "*** End Stack Trace ***\n")
      = unlines
        ([file ++ ":" ++ toString line ++ " " ++ func
            ++ "(): A panic occured, but was recovered; Details: " ++ rt.formatPlusV value ++ ";",
          "\t*** Stack Trace ***"]
          ++ (ls.drop 6).map (fun l => "\t" ++ l) ++ ["\t*** End Stack Trace ***"]) := by
    have hmid : ";\n\t*** Stack Trace ***\n\t"
        = ";" ++ ("\n" ++ ("\t*** Stack Trace ***" ++ ("\n" ++ "\t"))) := by decide
    have hend : "\t*** End Stack Trace ***" ++ "\n" = "\t" ++ "*** End Stack Trace ***\n" := by
      decide
    rw [unlines_append, unlines_append]
    simp only [unlines, String.append_assoc, String.append_empty]
    rw [hmid]
    simp only [String.append_assoc]
    rw [prettyStack_lines, hend]
  refine ⟨_, ?_, rfl, ?_⟩
  · rw [PanicToErr_of_pieces rt value hpieces, hloc, hsplit, hdrop, htext]
  · intro hfile hfunc
    rw [textLines_unlines]
    · simp
    · intro l hl
      simp only [List.mem_append, List.mem_cons, List.mem_map, List.mem_singleton,
        List.not_mem_nil, or_false] at hl
      rcases hl with ((h | h) | ⟨x, hx, h⟩) | h
      · subst h
        have h1 := not_mem_append_data file ":" hfile (by decide)
        have h2 := not_mem_append_data _ _ h1 (Int_toString_no_newline line)
        have h3 := not_mem_append_data _ " " h2 (by decide)
        have h4 := not_mem_append_data _ _ h3 hfunc
        have h5 := not_mem_append_data _
          "(): A panic occured, but was recovered; Details: " h4 (by decide)
        have h6 := not_mem_append_data _ _ h5 hv
        exact not_mem_append_data _ ";" h6 (by decide)
      · subst h
        decide
      · subst h
        exact not_mem_append_data _ _ (by decide) (hls x (List.mem_of_mem_drop hx))
      · subst h
        decide

/-- Witness for `PanicToErr_text_lines`: the panic of `TestPanicToErr`, recovered
value `"Test Panic"`, raised at line 140 of `errors_test.go` in `errs.panicyFunc`. -/
theorem PanicToErr_text_lines_witness :
    '\n' ∉ (rtPanicy.formatPlusV (.str "Test Panic")).data ∧
      getCallersInfo rtPanicy.toRuntime 4 = ⟨"errs.panicyFunc", "errors_test.go", 140⟩ ∧
      rtPanicy.Stack = unlines stackLinesPanicy ∧
      (∀ l ∈ stackLinesPanicy, '\n' ∉ l.data) ∧ 6 ≤ stackLinesPanicy.length ∧
      ∃ text, PanicToErr rtPanicy (some (.str "Test Panic")) = some (.foreign text) ∧
        textLines text
          = ["errors_test.go:140 errs.panicyFunc(): A panic occured, but was recovered; Details: Test Panic;",
            "\t*** Stack Trace ***",
            "\t/go/src/errs/errors_test.go:140 (0x4)",
            "\t\tpanicyFunc: panic(\"Test Panic\")",
            "\t/go/src/runtime/proc.c:1445 (0x5)",
            "\t\tgoexit: runtime·goexit(void)",
            "\t*** End Stack Trace ***",
            ""] := by
  refine ⟨by decide, by decide, rfl, by decide, by decide, ?_⟩
  obtain ⟨text, h1, _, h3⟩ := PanicToErr_text_lines rtPanicy (.str "Test Panic")
    "errors_test.go" "errs.panicyFunc" 140 stackLinesPanicy (by decide) (by decide) rfl
    (by decide) (by decide)
  exact ⟨text, h1, h3 (by decide) (by decide)⟩

end Errs
